import Mathlib

/-
  Verification development for the soft-serve SSH git middleware
  (src/server/ssh.go).

  The middleware is shallowly embedded as a pure function from a
  configuration (with an abstract backend), an environment of delegated
  pack operations, and a session, to a session result: the ordered list
  of observable events, the pkt-line error messages written to the
  client, the server-side log lines, and the exit status (some 1 on a
  fatal `sshFatal` path, none otherwise).

  Parts of the repository that are referenced by ssh.go but whose code
  is not in src/ (utils.SanitizeRepo, ensureWithin, the pack binary
  name constants, the error values) are modelled from the spec; each
  such definition carries a doc comment saying so.
-/

namespace SoftServe

/-- Access levels of the backend policy, an ordered enum
NoAccess < ReadOnly < ReadWrite < Admin (spec section 3). -/
inductive AccessLevel where
  | noAccess
  | readOnlyAccess
  | readWriteAccess
  | adminAccess
deriving DecidableEq, Repr

/-- Numeric rank of an access level, used for the order. -/
def AccessLevel.toNat : AccessLevel → Nat
  | .noAccess => 0
  | .readOnlyAccess => 1
  | .readWriteAccess => 2
  | .adminAccess => 3

instance : LE AccessLevel := ⟨fun a b => a.toNat ≤ b.toNat⟩

instance : LT AccessLevel := ⟨fun a b => a.toNat < b.toNat⟩

instance (a b : AccessLevel) : Decidable (a ≤ b) :=
  inferInstanceAs (Decidable (a.toNat ≤ b.toNat))

instance (a b : AccessLevel) : Decidable (a < b) :=
  inferInstanceAs (Decidable (a.toNat < b.toNat))

theorem AccessLevel.le_iff {a b : AccessLevel} : a ≤ b ↔ a.toNat ≤ b.toNat := Iff.rfl

theorem AccessLevel.lt_iff {a b : AccessLevel} : a < b ↔ a.toNat < b.toNat := Iff.rfl

/-- Errors written to the client as pkt-lines by sshFatal.  The first
three are the generic error values of the server package
(ErrNotAuthed, ErrSystemMalfunction, ErrInvalidRepo); `raw m` stands
for an arbitrary underlying Go error value with message `m` being
passed to sshFatal verbatim. -/
inductive GitErr where
  | notAuthed
  | systemMalfunction
  | invalidRepo
  | raw (msg : String)
deriving DecidableEq, Repr

/-- Result of a delegated pack operation (receivePack, uploadPack,
uploadArchive): success (none), the distinguished ErrInvalidRepo
failure, or any other failure with message `m`. -/
inductive PackFailure where
  | invalidRepo
  | failure (msg : String)
deriving DecidableEq, Repr

/-- The three delegated pack operations. -/
inductive PackOp where
  | receivePack
  | uploadPack
  | uploadArchive
deriving DecidableEq, Repr

/-- Observable events of one middleware run, in program order. -/
inductive Event where
  | sanitize (raw name : String)
  | accessLookup (name : String) (pk : Option String) (level : AccessLevel)
  | confine (root repo : String) (ok : Bool)
  | repoLookup (name : String) (ok : Bool)
  | createRepo (name : String) (flag ok : Bool)
  | invokePack (op : PackOp) (dir : String)
  | exit (code : Nat)
  | nextHandler
deriving DecidableEq, Repr

/-- The backend collaborator: access policy, keyless switch, repository
lookup and creation (spec section 6).  Lookup and creation return an
error message or succeed. -/
structure Backend where
  accessLevel : String → Option String → AccessLevel
  allowKeyless : Bool
  repository : String → Except String Unit
  createRepository : String → Bool → Except String Unit

/-- Server configuration: the data root path and the backend. -/
structure Config where
  dataPath : String
  backend : Backend

/-- The delegated pack operations, as functions from the repository
directory to a result. -/
structure Env where
  receivePack : String → Option PackFailure
  uploadPack : String → Option PackFailure
  uploadArchive : String → Option PackFailure

/-- A session: its command line and the presented public key
(none when the client authenticated without a key). -/
structure Session where
  command : List String
  publicKey : Option String

/-- Result of running the middleware on one session. -/
structure SessionResult where
  events : List Event
  clientOut : List GitErr
  serverLog : List String
  exitStatus : Option Nat
deriving DecidableEq, Repr

/-- Splits a character list at every occurrence of `c`
(kernel-reducible replacement for String.splitOn). -/
def splitOnChar (c : Char) : List Char → List (List Char)
  | [] => [[]]
  | x :: xs =>
    match splitOnChar c xs with
    | [] => [[]]
    | h :: t => if x = c then [] :: h :: t else (x :: h) :: t

/-- The segments of a slash-separated path. -/
def pathSegs (s : String) : List String :=
  (splitOnChar '/' s.data).map (fun cs => String.mk cs)

/-- Rejoins path segments with slashes. -/
def joinSegs : List String → String
  | [] => ""
  | [s] => s
  | s :: rest => s ++ "/" ++ joinSegs rest

/-- Lexical path cleaning on segments: drop empty and `.` segments,
let a `..` segment cancel a preceding normal segment, and keep leading
`..` segments (like Go filepath.Clean on a relative path). -/
def cleanSegs (segs : List String) : List String :=
  segs.foldl
    (fun acc seg =>
      if seg = "" ∨ seg = "." then acc
      else if seg = ".." then
        match acc.getLast? with
        | some last => if last = ".." then acc ++ [".."] else acc.dropLast
        | none => [".."]
      else acc ++ [seg])
    []

/-- Boolean test that `pre` is a prefix of the string `s`
(kernel-reducible replacement for strings.HasPrefix). -/
def strHasPrefix (s pre : String) : Bool :=
  pre.data.isPrefixOf s.data

/-- Removes a trailing `suf` from `s` when present (Go
strings.TrimSuffix). -/
def trimSuffix (s suf : String) : String :=
  if suf.data.isSuffixOf s.data then
    String.mk (s.data.take (s.data.length - suf.data.length))
  else s

/-- Modelled from the spec: `utils.SanitizeRepo` (not in src/).  The
RepositoryName is produced by sanitizing the client token: strip
leading path separators, collapse traversal segments lexically, and
strip a trailing ".git" suffix; leading `..` segments of a relative
path survive and are caught later by the confinement check, which the
spec calls the defense-in-depth backstop. -/
def SanitizeRepo (repo : String) : String :=
  trimSuffix (joinSegs (cleanSegs (pathSegs repo))) ".git"

/-- Models Go filepath.Join for the clean segments used here. -/
def filepathJoin (a b : String) : String := a ++ "/" ++ b

/-- Modelled from the spec: `ensureWithin` (not in src/).  Resolves the
candidate against the root by segment analysis and verifies the result
is a strict descendant of the root; a confinement failure is reported
to the client only as the generic system-malfunction error, never with
internal path detail (spec sections 4.3 and 7). -/
def ensureWithin (reposDir repo : String) : Except GitErr Unit :=
  let rootSegs := cleanSegs (pathSegs reposDir)
  let fullSegs := cleanSegs (pathSegs (filepathJoin reposDir repo))
  if rootSegs.isPrefixOf fullSegs && decide (rootSegs.length < fullSegs.length) then
    Except.ok ()
  else
    Except.error GitErr.systemMalfunction

/-- Modelled from the spec: the receive-pack binary name constant
(declared in server/git.go, not in src/). -/
def receivePackBin : String := "git-receive-pack"

/-- Modelled from the spec: the upload-pack binary name constant
(declared in server/git.go, not in src/). -/
def uploadPackBin : String := "git-upload-pack"

/-- Modelled from the spec: the upload-archive binary name constant
(declared in server/git.go, not in src/). -/
def uploadArchiveBin : String := "git-upload-archive"

/-- PublicKeyHandler: accept the connection iff the backend access
level of the presented key, with the empty repository name, is at
least ReadOnly (ssh.go lines 92 to 94). -/
def PublicKeyHandler (cfg : Config) (pk : Option String) : Bool :=
  decide (AccessLevel.readOnlyAccess ≤ cfg.backend.accessLevel "" pk)

/-- KeyboardInteractiveHandler: accept iff the backend allows keyless
access and the public-key handler accepts the empty (nil) key
(ssh.go lines 97 to 99). -/
def KeyboardInteractiveHandler (cfg : Config) : Bool :=
  cfg.backend.allowKeyless && PublicKeyHandler cfg none

/-- The repos directory, filepath.Join(cfg.DataPath, "repos")
(ssh.go line 120). -/
def reposDirOf (cfg : Config) : String := filepathJoin cfg.dataPath "repos"

/-- The bare repository file name, name + ".git" (ssh.go line 119). -/
def repoFileOf (c1 : String) : String := SanitizeRepo c1 ++ ".git"

/-- The full repository directory, filepath.Join(reposDir, repo)
(ssh.go line 126). -/
def repoDirOf (cfg : Config) (c1 : String) : String :=
  filepathJoin (reposDirOf cfg) (repoFileOf c1)

/-- The access level resolved for this session,
cfg.Backend.AccessLevel(name, pk) (ssh.go line 116). -/
def accessOf (cfg : Config) (c1 : String) (pk : Option String) : AccessLevel :=
  cfg.backend.accessLevel (SanitizeRepo c1) pk

/-- The pack function chosen on the upload branch: uploadPack, or
uploadArchive when the command is the upload-archive binary
(ssh.go lines 149 to 152). -/
def uploadPackOf (env : Env) (gc : String) : String → Option PackFailure :=
  if gc = uploadArchiveBin then env.uploadArchive else env.uploadPack

/-- The pack operation tag matching uploadPackOf. -/
def uploadOpOf (gc : String) : PackOp :=
  if gc = uploadArchiveBin then PackOp.uploadArchive else PackOp.uploadPack

/-- Events of the prologue of the git branch: sanitization of the repo
token and the backend access-level lookup, in code order
(ssh.go lines 114 and 116). -/
def preEvents (cfg : Config) (c1 : String) (pk : Option String) : List Event :=
  [Event.sanitize c1 (SanitizeRepo c1),
   Event.accessLookup (SanitizeRepo c1) pk (accessOf cfg c1 pk)]

/-- Prologue events followed by a successful confinement check. -/
def okPre (cfg : Config) (c1 : String) (pk : Option String) : List Event :=
  preEvents cfg c1 pk ++ [Event.confine (reposDirOf cfg) (repoFileOf c1) true]

/-- Invocation of receive-pack: any failure is reported as the generic
ErrSystemMalfunction (ssh.go lines 140 to 142). -/
def runReceivePack (env : Env) (repoDir : String) (pre : List Event) : SessionResult :=
  match env.receivePack repoDir with
  | some _ =>
    { events := pre ++ [Event.invokePack PackOp.receivePack repoDir, Event.exit 1, Event.nextHandler]
      clientOut := [GitErr.systemMalfunction]
      serverLog := []
      exitStatus := some 1 }
  | none =>
    { events := pre ++ [Event.invokePack PackOp.receivePack repoDir, Event.nextHandler]
      clientOut := []
      serverLog := []
      exitStatus := none }

/-- The receive-pack branch of the dispatch (ssh.go lines 128 to 143):
require ReadWrite, else sshFatal(ErrNotAuthed); on any repository
lookup error attempt CreateRepository(name, false), a creation error
being logged and passed to sshFatal verbatim; then invoke
receive-pack. -/
def receiveBranch (cfg : Config) (env : Env) (c1 : String) (pk : Option String) : SessionResult :=
  if accessOf cfg c1 pk < AccessLevel.readWriteAccess then
    { events := okPre cfg c1 pk ++ [Event.exit 1, Event.nextHandler]
      clientOut := [GitErr.notAuthed]
      serverLog := []
      exitStatus := some 1 }
  else
    match cfg.backend.repository (SanitizeRepo c1) with
    | Except.error _ =>
      match cfg.backend.createRepository (SanitizeRepo c1) false with
      | Except.error ce =>
        { events := okPre cfg c1 pk ++
            [Event.repoLookup (SanitizeRepo c1) false,
             Event.createRepo (SanitizeRepo c1) false false,
             Event.exit 1, Event.nextHandler]
          clientOut := [GitErr.raw ce]
          serverLog := ["failed to create repo: " ++ ce]
          exitStatus := some 1 }
      | Except.ok _ =>
        runReceivePack env (repoDirOf cfg c1)
          (okPre cfg c1 pk ++
            [Event.repoLookup (SanitizeRepo c1) false,
             Event.createRepo (SanitizeRepo c1) false true])
    | Except.ok _ =>
      runReceivePack env (repoDirOf cfg c1)
        (okPre cfg c1 pk ++ [Event.repoLookup (SanitizeRepo c1) true])

/-- The upload-pack and upload-archive branch (ssh.go lines 144 to
158): require ReadOnly, else sshFatal(ErrNotAuthed); invoke the
matching pack operation; ErrInvalidRepo is surfaced as itself, any
other failure as ErrSystemMalfunction. -/
def uploadBranch (cfg : Config) (env : Env) (gc c1 : String) (pk : Option String) : SessionResult :=
  if accessOf cfg c1 pk < AccessLevel.readOnlyAccess then
    { events := okPre cfg c1 pk ++ [Event.exit 1, Event.nextHandler]
      clientOut := [GitErr.notAuthed]
      serverLog := []
      exitStatus := some 1 }
  else
    match uploadPackOf env gc (repoDirOf cfg c1) with
    | some PackFailure.invalidRepo =>
      { events := okPre cfg c1 pk ++
          [Event.invokePack (uploadOpOf gc) (repoDirOf cfg c1), Event.exit 1, Event.nextHandler]
        clientOut := [GitErr.invalidRepo]
        serverLog := []
        exitStatus := some 1 }
    | some (PackFailure.failure _) =>
      { events := okPre cfg c1 pk ++
          [Event.invokePack (uploadOpOf gc) (repoDirOf cfg c1), Event.exit 1, Event.nextHandler]
        clientOut := [GitErr.systemMalfunction]
        serverLog := []
        exitStatus := some 1 }
    | none =>
      { events := okPre cfg c1 pk ++
          [Event.invokePack (uploadOpOf gc) (repoDirOf cfg c1), Event.nextHandler]
        clientOut := []
        serverLog := []
        exitStatus := none }

/-- The git branch of the middleware (ssh.go lines 112 to 159):
sanitize, resolve the access level, run the confinement check (fatal
on failure, the generic error going to the client and the path detail
to the server log), then dispatch on the command binary; a git command
that is none of the three pack binaries falls through silently. -/
def gitDispatch (cfg : Config) (env : Env) (gc c1 : String) (pk : Option String) : SessionResult :=
  match ensureWithin (reposDirOf cfg) (repoFileOf c1) with
  | Except.error e =>
    { events := preEvents cfg c1 pk ++
        [Event.confine (reposDirOf cfg) (repoFileOf c1) false, Event.exit 1, Event.nextHandler]
      clientOut := [e]
      serverLog := ["repo path is outside of repos directory: " ++ repoDirOf cfg c1]
      exitStatus := some 1 }
  | Except.ok _ =>
    if gc = receivePackBin then receiveBranch cfg env c1 pk
    else if gc = uploadPackBin ∨ gc = uploadArchiveBin then uploadBranch cfg env gc c1 pk
    else
      { events := okPre cfg c1 pk ++ [Event.nextHandler]
        clientOut := []
        serverLog := []
        exitStatus := none }

/-- The result of a session the git middleware does not touch: it only
passes control to the next handler in the chain (ssh.go line 162). -/
def passThrough : SessionResult :=
  { events := [Event.nextHandler]
    clientOut := []
    serverLog := []
    exitStatus := none }

/-- The git middleware (ssh.go lines 106 to 165): a session whose
command line has at least two tokens and whose first token begins with
"git" enters the git dispatch; any other session is passed through
unchanged. -/
def Middleware (cfg : Config) (env : Env) (s : Session) : SessionResult :=
  match s.command with
  | gc :: c1 :: _ =>
    if strHasPrefix gc "git" then gitDispatch cfg env gc c1 s.publicKey
    else passThrough
  | _ => passThrough

/-- True when the command line would enter the git branch: at least two
tokens and the first begins with "git" (ssh.go line 111). -/
def isGitRequest : List String → Bool
  | gc :: _ :: _ => strHasPrefix gc "git"
  | _ => false

/-- Stage number of an event in the order claimed by the spec:
parse 0, confine 1, authorize 2, create 3, invoke 4.  Events that are
not a stage of the five-stage sequence get none. -/
def specStageRank : Event → Option Nat
  | Event.sanitize _ _ => some 0
  | Event.confine _ _ _ => some 1
  | Event.accessLookup _ _ _ => some 2
  | Event.repoLookup _ _ => some 3
  | Event.createRepo _ _ _ => some 3
  | Event.invokePack _ _ => some 4
  | _ => none

/-- Stage number of an event in the order the code actually uses:
parse 0, authorize 1, confine 2, create 3, invoke 4. -/
def codeStageRank : Event → Option Nat
  | Event.sanitize _ _ => some 0
  | Event.accessLookup _ _ _ => some 1
  | Event.confine _ _ _ => some 2
  | Event.repoLookup _ _ => some 3
  | Event.createRepo _ _ _ => some 3
  | Event.invokePack _ _ => some 4
  | _ => none

/-- Boolean test that a list of naturals is weakly increasing. -/
def sortedNat : List Nat → Bool
  | [] => true
  | [_] => true
  | a :: b :: rest => decide (a ≤ b) && sortedNat (b :: rest)

/-- True of a repository-creation event. -/
def isCreateEvent : Event → Bool
  | Event.createRepo _ _ _ => true
  | _ => false

/-- True of a pack-invocation event. -/
def isInvokeEvent : Event → Bool
  | Event.invokePack _ _ => true
  | _ => false

/-- Scanning the event list in order, a creation event occurs strictly
before the first pack invocation (vacuously true when no invocation
occurs before a creation is found and the list ends). -/
def createBeforeInvoke : List Event → Bool
  | [] => true
  | e :: rest =>
    if isInvokeEvent e then false
    else if isCreateEvent e then true
    else createBeforeInvoke rest

/-- A neutral concrete backend used by witnesses. -/
def demoBackend : Backend :=
  { accessLevel := fun _ _ => AccessLevel.noAccess
    allowKeyless := false
    repository := fun _ => Except.error "not found"
    createRepository := fun _ _ => Except.ok () }

/-- A neutral concrete configuration used by witnesses. -/
def demoCfg : Config := { dataPath := "/data", backend := demoBackend }

/-- A neutral concrete environment used by witnesses: every pack
operation succeeds. -/
def demoEnv : Env :=
  { receivePack := fun _ => none
    uploadPack := fun _ => none
    uploadArchive := fun _ => none }

/-- C7: the public-key authentication callback returns true iff the
backend-resolved access level of the presented key is at least
ReadOnly, and the keyboard-interactive callback returns true iff the
backend permits keyless access and the public-key check with the
anonymous (absent) key also returns true. -/
theorem c7_auth_callbacks (cfg : Config) (pk : Option String) :
    (PublicKeyHandler cfg pk = true ↔
      AccessLevel.readOnlyAccess ≤ cfg.backend.accessLevel "" pk) ∧
    (KeyboardInteractiveHandler cfg = true ↔
      (cfg.backend.allowKeyless = true ∧ PublicKeyHandler cfg none = true)) := by
  constructor
  · simp [PublicKeyHandler]
  · simp [KeyboardInteractiveHandler]

/-- C8: a session whose command line has fewer than two tokens or whose
first token does not begin with "git" is untouched by the git
middleware: no event other than passing to the next handler, nothing
written to the client, nothing logged, no exit. -/
theorem c8_non_git_noop (cfg : Config) (env : Env) (s : Session)
    (h : isGitRequest s.command = false) :
    Middleware cfg env s =
      { events := [Event.nextHandler], clientOut := [], serverLog := [], exitStatus := none } := by
  rcases hs : s.command with _ | ⟨gc, _ | ⟨c1, rest⟩⟩
  · simp [Middleware, hs, passThrough]
  · simp [Middleware, hs, passThrough]
  · rw [hs] at h
    simp only [isGitRequest] at h
    simp [Middleware, hs, h, passThrough]

/-- Witness for C8 at the concrete command line ["ls"]. -/
theorem c8_non_git_noop_witness :
    isGitRequest ["ls"] = false ∧
    Middleware demoCfg demoEnv { command := ["ls"], publicKey := none } =
      { events := [Event.nextHandler], clientOut := [], serverLog := [], exitStatus := none } :=
  ⟨by decide, c8_non_git_noop demoCfg demoEnv { command := ["ls"], publicKey := none } (by decide)⟩

/-- C2 counterexample: on a concrete git session the event order is
parse, then access-level resolution, then confinement — the backend
AccessLevel lookup happens before the path-confinement check, so the
claimed order parse, confine, authorize does not hold. -/
theorem c2_counterexample :
    (Middleware demoCfg demoEnv { command := ["git-upload-pack", "r"], publicKey := some "k" }).events =
      [Event.sanitize "r" "r",
       Event.accessLookup "r" (some "k") AccessLevel.noAccess,
       Event.confine "/data/repos" "r.git" true,
       Event.exit 1, Event.nextHandler] ∧
    sortedNat (List.filterMap specStageRank
      (Middleware demoCfg demoEnv { command := ["git-upload-pack", "r"], publicKey := some "k" }).events)
      = false := by
  decide

/-- C2 amended: within one session the stages run strictly
sequentially in the order parse, then access-level resolution
(authorize), then path confinement, then optional creation, then pack
invocation — the AccessLevel lookup precedes the confinement check,
not the other way around. -/
theorem c2_amended_order (cfg : Config) (env : Env) (s : Session) :
    sortedNat (List.filterMap codeStageRank (Middleware cfg env s).events) = true := by
  unfold Middleware gitDispatch receiveBranch uploadBranch runReceivePack
  repeat' split
  all_goals simp [okPre, preEvents, passThrough, codeStageRank, sortedNat]

/-- A backend whose policy distinguishes the empty repository name
from a named repository, separating the two call sites of
accessLevel. -/
def splitPolicyBackend : Backend :=
  { accessLevel := fun r _ => if r = "" then AccessLevel.noAccess else AccessLevel.adminAccess
    allowKeyless := false
    repository := fun _ => Except.ok ()
    createRepository := fun _ _ => Except.ok () }

/-- Configuration around splitPolicyBackend. -/
def splitPolicyCfg : Config := { dataPath := "/data", backend := splitPolicyBackend }

/-- C3 counterexample: connection acceptance evaluates the policy at
the empty repository name while operation authorization evaluates it
at the sanitized target name, so for the same key the two checks can
disagree: here acceptance sees NoAccess and rejects, while the
middleware resolves Admin for repository r — the two checks do not
apply the backend function to the same pair. -/
theorem c3_counterexample :
    PublicKeyHandler splitPolicyCfg (some "k") = false ∧
    Event.accessLookup "r" (some "k") AccessLevel.adminAccess ∈
      (Middleware splitPolicyCfg demoEnv
        { command := ["git-upload-pack", "r"], publicKey := some "k" }).events := by
  decide

/-- C3 amended: both checks call the one backend function accessLevel
with the same presented key, but connection acceptance fixes the
repository argument to the empty string (no repository is known at
authentication time) against the ReadOnly threshold, while operation
authorization passes the sanitized repository name of the command. -/
theorem c3_amended_same_function (cfg : Config) (env : Env) (gc c1 : String)
    (rest : List String) (pk : Option String)
    (hgit : strHasPrefix gc "git" = true) :
    PublicKeyHandler cfg pk = decide (AccessLevel.readOnlyAccess ≤ cfg.backend.accessLevel "" pk) ∧
    Event.accessLookup (SanitizeRepo c1) pk (cfg.backend.accessLevel (SanitizeRepo c1) pk) ∈
      (Middleware cfg env { command := gc :: c1 :: rest, publicKey := pk }).events := by
  refine ⟨rfl, ?_⟩
  unfold Middleware gitDispatch receiveBranch uploadBranch runReceivePack
  simp only [hgit, if_true]
  repeat' split
  all_goals simp [okPre, preEvents, accessOf]

/-- Witness for C3 amended at a concrete upload-pack session. -/
theorem c3_amended_same_function_witness :
    PublicKeyHandler demoCfg (some "k") =
      decide (AccessLevel.readOnlyAccess ≤ demoCfg.backend.accessLevel "" (some "k")) ∧
    Event.accessLookup (SanitizeRepo "r") (some "k")
        (demoCfg.backend.accessLevel (SanitizeRepo "r") (some "k")) ∈
      (Middleware demoCfg demoEnv { command := ["git-upload-pack", "r"], publicKey := some "k" }).events :=
  c3_amended_same_function demoCfg demoEnv "git-upload-pack" "r" [] (some "k") (by decide)

/-- C5: a receive-pack session that passes confinement but whose
resolved access level is below ReadWrite receives exactly the
NotAuthorized error and exit status 1, with no repository lookup, no
creation, no pack invocation and no server log — the store is left
untouched. -/
theorem c5_receivepack_denied (cfg : Config) (env : Env) (c1 : String)
    (rest : List String) (pk : Option String)
    (hconf : ensureWithin (reposDirOf cfg) (repoFileOf c1) = Except.ok ())
    (hacc : accessOf cfg c1 pk < AccessLevel.readWriteAccess) :
    Middleware cfg env { command := receivePackBin :: c1 :: rest, publicKey := pk } =
      { events := [Event.sanitize c1 (SanitizeRepo c1),
                   Event.accessLookup (SanitizeRepo c1) pk (accessOf cfg c1 pk),
                   Event.confine (reposDirOf cfg) (repoFileOf c1) true,
                   Event.exit 1, Event.nextHandler]
        clientOut := [GitErr.notAuthed]
        serverLog := []
        exitStatus := some 1 } := by
  have hg : strHasPrefix receivePackBin "git" = true := by decide
  unfold Middleware gitDispatch receiveBranch
  simp [hg, hconf, hacc, okPre, preEvents]

/-- Witness for C5: a ReadOnly key pushing to an existing place is
turned away with NotAuthorized and no backend activity. -/
theorem c5_receivepack_denied_witness :
    ensureWithin (reposDirOf demoCfg) (repoFileOf "r") = Except.ok () ∧
    accessOf demoCfg "r" (some "k") < AccessLevel.readWriteAccess ∧
    Middleware demoCfg demoEnv { command := [receivePackBin, "r"], publicKey := some "k" } =
      { events := [Event.sanitize "r" "r",
                   Event.accessLookup "r" (some "k") AccessLevel.noAccess,
                   Event.confine "/data/repos" "r.git" true,
                   Event.exit 1, Event.nextHandler]
        clientOut := [GitErr.notAuthed]
        serverLog := []
        exitStatus := some 1 } :=
  ⟨rfl, by decide,
    c5_receivepack_denied demoCfg demoEnv "r" [] (some "k") rfl (by decide)⟩

/-- C6: an upload-pack or upload-archive session that passes
confinement is turned away with NotAuthorized below ReadOnly;
otherwise the matching pack operation is invoked and its failure is
surfaced as exactly ErrInvalidRepo when it signals an invalid
repository and as the generic ErrSystemMalfunction for any other
failure — a raw error message never reaches the client. -/
theorem c6_upload_dispatch (cfg : Config) (env : Env) (gc c1 : String)
    (rest : List String) (pk : Option String)
    (hup : gc = uploadPackBin ∨ gc = uploadArchiveBin)
    (hconf : ensureWithin (reposDirOf cfg) (repoFileOf c1) = Except.ok ()) :
    (∀ m, GitErr.raw m ∉
      (Middleware cfg env { command := gc :: c1 :: rest, publicKey := pk }).clientOut) ∧
    (accessOf cfg c1 pk < AccessLevel.readOnlyAccess →
      Middleware cfg env { command := gc :: c1 :: rest, publicKey := pk } =
        { events := okPre cfg c1 pk ++ [Event.exit 1, Event.nextHandler]
          clientOut := [GitErr.notAuthed]
          serverLog := []
          exitStatus := some 1 }) ∧
    (AccessLevel.readOnlyAccess ≤ accessOf cfg c1 pk →
      Event.invokePack (uploadOpOf gc) (repoDirOf cfg c1) ∈
        (Middleware cfg env { command := gc :: c1 :: rest, publicKey := pk }).events ∧
      (uploadPackOf env gc (repoDirOf cfg c1) = some PackFailure.invalidRepo →
        (Middleware cfg env { command := gc :: c1 :: rest, publicKey := pk }).clientOut =
          [GitErr.invalidRepo] ∧
        (Middleware cfg env { command := gc :: c1 :: rest, publicKey := pk }).exitStatus = some 1) ∧
      (∀ m, uploadPackOf env gc (repoDirOf cfg c1) = some (PackFailure.failure m) →
        (Middleware cfg env { command := gc :: c1 :: rest, publicKey := pk }).clientOut =
          [GitErr.systemMalfunction] ∧
        (Middleware cfg env { command := gc :: c1 :: rest, publicKey := pk }).exitStatus = some 1) ∧
      (uploadPackOf env gc (repoDirOf cfg c1) = none →
        (Middleware cfg env { command := gc :: c1 :: rest, publicKey := pk }).clientOut = [] ∧
        (Middleware cfg env { command := gc :: c1 :: rest, publicKey := pk }).exitStatus = none)) := by
  have hg : strHasPrefix gc "git" = true := by
    rcases hup with h | h <;> subst h <;> decide
  have hne : ¬ gc = receivePackBin := by
    rcases hup with h | h <;> subst h <;> decide
  unfold Middleware gitDispatch uploadBranch
  simp only [hg, if_true, hconf]
  rw [if_neg hne, if_pos hup]
  by_cases hacc : accessOf cfg c1 pk < AccessLevel.readOnlyAccess
  · rw [if_pos hacc]
    refine ⟨?_, fun _ => rfl, fun hge => absurd hacc (Nat.not_lt.mpr hge)⟩
    intro m
    cases hp : uploadPackOf env gc (repoDirOf cfg c1) with
    | none => simp
    | some pf => cases pf <;> simp
  · rw [if_neg hacc]
    cases hp : uploadPackOf env gc (repoDirOf cfg c1) with
    | none =>
      refine ⟨by simp, fun h => absurd h hacc, fun _ => ⟨by simp, ?_, by simp, fun _ => ⟨rfl, rfl⟩⟩⟩
      intro h
      simp [hp] at h
    | some pf =>
      cases pf with
      | invalidRepo =>
        refine ⟨by simp, fun h => absurd h hacc,
          fun _ => ⟨by simp, fun _ => ⟨rfl, rfl⟩, fun m h => by simp at h, fun h => by simp at h⟩⟩
      | failure msg =>
        refine ⟨by simp, fun h => absurd h hacc,
          fun _ => ⟨by simp, fun h => by simp at h, fun m _ => ⟨rfl, rfl⟩, fun h => by simp at h⟩⟩

/-- A concrete backend granting Admin to everyone, used by witnesses
that need the access checks to pass. -/
def adminBackend : Backend :=
  { accessLevel := fun _ _ => AccessLevel.adminAccess
    allowKeyless := true
    repository := fun _ => Except.ok ()
    createRepository := fun _ _ => Except.ok () }

/-- Configuration around adminBackend. -/
def adminCfg : Config := { dataPath := "/data", backend := adminBackend }

/-- Witness for C6 at a concrete upload-pack session with Admin
access. -/
theorem c6_upload_dispatch_witness :
    ("git-upload-pack" = uploadPackBin ∨ "git-upload-pack" = uploadArchiveBin) ∧
    ensureWithin (reposDirOf adminCfg) (repoFileOf "r") = Except.ok () ∧
    ((∀ m, GitErr.raw m ∉
      (Middleware adminCfg demoEnv { command := ["git-upload-pack", "r"], publicKey := some "k" }).clientOut) ∧
    (accessOf adminCfg "r" (some "k") < AccessLevel.readOnlyAccess →
      Middleware adminCfg demoEnv { command := ["git-upload-pack", "r"], publicKey := some "k" } =
        { events := okPre adminCfg "r" (some "k") ++ [Event.exit 1, Event.nextHandler]
          clientOut := [GitErr.notAuthed]
          serverLog := []
          exitStatus := some 1 }) ∧
    (AccessLevel.readOnlyAccess ≤ accessOf adminCfg "r" (some "k") →
      Event.invokePack (uploadOpOf "git-upload-pack") (repoDirOf adminCfg "r") ∈
        (Middleware adminCfg demoEnv { command := ["git-upload-pack", "r"], publicKey := some "k" }).events ∧
      (uploadPackOf demoEnv "git-upload-pack" (repoDirOf adminCfg "r") = some PackFailure.invalidRepo →
        (Middleware adminCfg demoEnv { command := ["git-upload-pack", "r"], publicKey := some "k" }).clientOut =
          [GitErr.invalidRepo] ∧
        (Middleware adminCfg demoEnv { command := ["git-upload-pack", "r"], publicKey := some "k" }).exitStatus = some 1) ∧
      (∀ m, uploadPackOf demoEnv "git-upload-pack" (repoDirOf adminCfg "r") = some (PackFailure.failure m) →
        (Middleware adminCfg demoEnv { command := ["git-upload-pack", "r"], publicKey := some "k" }).clientOut =
          [GitErr.systemMalfunction] ∧
        (Middleware adminCfg demoEnv { command := ["git-upload-pack", "r"], publicKey := some "k" }).exitStatus = some 1) ∧
      (uploadPackOf demoEnv "git-upload-pack" (repoDirOf adminCfg "r") = none →
        (Middleware adminCfg demoEnv { command := ["git-upload-pack", "r"], publicKey := some "k" }).clientOut = [] ∧
        (Middleware adminCfg demoEnv { command := ["git-upload-pack", "r"], publicKey := some "k" }).exitStatus = none))) :=
  ⟨Or.inl rfl, rfl,
    c6_upload_dispatch adminCfg demoEnv "git-upload-pack" "r" [] (some "k") (Or.inl rfl) rfl⟩

/-- C4: a repository-creation event can only arise on the
receive-pack branch, with the boolean flag false, with the access
level at least ReadWrite, and only after the backend repository lookup
returned an error (the not-present case of the backend contract); no
upload-pack or upload-archive session ever creates a repository. -/
theorem c4_create_only_on_push (cfg : Config) (env : Env) (s : Session)
    (n : String) (b ok : Bool)
    (h : Event.createRepo n b ok ∈ (Middleware cfg env s).events) :
    b = false ∧
    (∃ c1 rest, s.command = receivePackBin :: c1 :: rest ∧ n = SanitizeRepo c1) ∧
    AccessLevel.readWriteAccess ≤ cfg.backend.accessLevel n s.publicKey ∧
    (∃ le, cfg.backend.repository n = Except.error le) := by
  unfold Middleware gitDispatch receiveBranch uploadBranch runReceivePack at h
  repeat' split at h
  all_goals simp [okPre, preEvents, passThrough] at h
  all_goals
    obtain ⟨hn, hb, -⟩ := h
    subst hn
    subst hb
    rename Session.command _ = _ => hcmd
    rename _ = receivePackBin => hgc
    rename (¬ _) => hacc
    rename Backend.repository _ _ = Except.error _ => hrepo
    rw [hgc] at hcmd
    exact ⟨rfl, ⟨_, _, hcmd, rfl⟩, Nat.le_of_not_lt hacc, ⟨_, hrepo⟩⟩

/-- A concrete backend where the repository lookup fails and creation
succeeds, used to witness the auto-creation path. -/
def pushBackend : Backend :=
  { accessLevel := fun _ _ => AccessLevel.adminAccess
    allowKeyless := false
    repository := fun _ => Except.error "repository not found"
    createRepository := fun _ _ => Except.ok () }

/-- Configuration around pushBackend. -/
def pushCfg : Config := { dataPath := "/data", backend := pushBackend }

/-- Witness for C4: a push by an Admin key to a missing repository
creates it, and the theorem pins down the circumstances. -/
theorem c4_create_only_on_push_witness :
    Event.createRepo "x" false true ∈
      (Middleware pushCfg demoEnv { command := ["git-receive-pack", "x"], publicKey := some "k" }).events ∧
    (false = false ∧
     (∃ c1 rest, ["git-receive-pack", "x"] = receivePackBin :: c1 :: rest ∧ "x" = SanitizeRepo c1) ∧
     AccessLevel.readWriteAccess ≤ pushCfg.backend.accessLevel "x" (some "k") ∧
     (∃ le, pushCfg.backend.repository "x" = Except.error le)) :=
  ⟨by decide,
    c4_create_only_on_push pushCfg demoEnv
      { command := ["git-receive-pack", "x"], publicKey := some "k" } "x" false true (by decide)⟩

/-- C9: on the receive-pack branch, auto-creation is attempted
whenever the backend repository lookup returns any error value at all
— the error is never inspected — and the creation attempt happens
before receive-pack could be invoked. -/
theorem c9_create_on_any_lookup_error (cfg : Config) (env : Env) (c1 : String)
    (rest : List String) (pk : Option String) (e : String)
    (hconf : ensureWithin (reposDirOf cfg) (repoFileOf c1) = Except.ok ())
    (hacc : AccessLevel.readWriteAccess ≤ accessOf cfg c1 pk)
    (hrepo : cfg.backend.repository (SanitizeRepo c1) = Except.error e) :
    (∃ ok, Event.createRepo (SanitizeRepo c1) false ok ∈
      (Middleware cfg env { command := receivePackBin :: c1 :: rest, publicKey := pk }).events) ∧
    createBeforeInvoke
      (Middleware cfg env { command := receivePackBin :: c1 :: rest, publicKey := pk }).events = true := by
  have hg : strHasPrefix receivePackBin "git" = true := by decide
  have hnlt : ¬ accessOf cfg c1 pk < AccessLevel.readWriteAccess := Nat.not_lt.mpr hacc
  unfold Middleware gitDispatch receiveBranch runReceivePack
  simp only [hg, if_true, hconf]
  rw [if_neg hnlt, hrepo]
  cases hcr : cfg.backend.createRepository (SanitizeRepo c1) false with
  | error ce =>
    refine ⟨⟨false, ?_⟩, ?_⟩
    · simp [okPre, preEvents]
    · simp [okPre, preEvents, createBeforeInvoke, isCreateEvent, isInvokeEvent]
  | ok u =>
    cases hrp : env.receivePack (repoDirOf cfg c1) with
    | some pf =>
      refine ⟨⟨true, ?_⟩, ?_⟩
      · simp [okPre, preEvents]
      · simp [okPre, preEvents, createBeforeInvoke, isCreateEvent, isInvokeEvent]
    | none =>
      refine ⟨⟨true, ?_⟩, ?_⟩
      · simp [okPre, preEvents]
      · simp [okPre, preEvents, createBeforeInvoke, isCreateEvent, isInvokeEvent]

/-- A concrete backend whose repository lookup fails with a transient
error rather than a not-found, used to witness C9. -/
def flakyBackend : Backend :=
  { accessLevel := fun _ _ => AccessLevel.adminAccess
    allowKeyless := false
    repository := fun _ => Except.error "backend timeout"
    createRepository := fun _ _ => Except.ok () }

/-- Configuration around flakyBackend. -/
def flakyCfg : Config := { dataPath := "/data", backend := flakyBackend }

/-- Witness for C9: a transient lookup error ("backend timeout")
still triggers a creation attempt before receive-pack runs. -/
theorem c9_create_on_any_lookup_error_witness :
    ensureWithin (reposDirOf flakyCfg) (repoFileOf "x") = Except.ok () ∧
    AccessLevel.readWriteAccess ≤ accessOf flakyCfg "x" (some "k") ∧
    flakyCfg.backend.repository (SanitizeRepo "x") = Except.error "backend timeout" ∧
    ((∃ ok, Event.createRepo (SanitizeRepo "x") false ok ∈
      (Middleware flakyCfg demoEnv { command := [receivePackBin, "x"], publicKey := some "k" }).events) ∧
    createBeforeInvoke
      (Middleware flakyCfg demoEnv { command := [receivePackBin, "x"], publicKey := some "k" }).events = true) :=
  ⟨rfl, by decide, rfl,
    c9_create_on_any_lookup_error flakyCfg demoEnv "x" [] (some "k") "backend timeout"
      rfl (by decide) rfl⟩

/-- C10: a command line whose first token begins with "git" but is
none of the three pack binaries still gets the repo-name
sanitization, the access-level lookup and the confinement check; a
confinement failure is fatal to the session, and when confinement
passes nothing is dispatched and the chain continues silently. -/
theorem c10_non_pack_git_command (cfg : Config) (env : Env) (gc c1 : String)
    (rest : List String) (pk : Option String)
    (hgit : strHasPrefix gc "git" = true)
    (h1 : gc ≠ receivePackBin) (h2 : gc ≠ uploadPackBin) (h3 : gc ≠ uploadArchiveBin) :
    (∀ ge, ensureWithin (reposDirOf cfg) (repoFileOf c1) = Except.error ge →
      Middleware cfg env { command := gc :: c1 :: rest, publicKey := pk } =
        { events := preEvents cfg c1 pk ++
            [Event.confine (reposDirOf cfg) (repoFileOf c1) false, Event.exit 1, Event.nextHandler]
          clientOut := [ge]
          serverLog := ["repo path is outside of repos directory: " ++ repoDirOf cfg c1]
          exitStatus := some 1 }) ∧
    (ensureWithin (reposDirOf cfg) (repoFileOf c1) = Except.ok () →
      Middleware cfg env { command := gc :: c1 :: rest, publicKey := pk } =
        { events := okPre cfg c1 pk ++ [Event.nextHandler]
          clientOut := []
          serverLog := []
          exitStatus := none }) := by
  have hor : ¬ (gc = uploadPackBin ∨ gc = uploadArchiveBin) := by
    rintro (h | h)
    · exact h2 h
    · exact h3 h
  unfold Middleware gitDispatch
  simp only [hgit, if_true]
  constructor
  · intro ge hconf
    rw [hconf]
  · intro hconf
    rw [hconf, if_neg h1, if_neg hor]

/-- Witness for C10 with the non-pack git command "git-lfs": a
traversal name is fatal at the confinement check, a clean name passes
through silently. -/
theorem c10_non_pack_git_command_witness :
    strHasPrefix "git-lfs" "git" = true ∧
    Middleware demoCfg demoEnv { command := ["git-lfs", "../../etc"], publicKey := some "k" } =
      { events := preEvents demoCfg "../../etc" (some "k") ++
          [Event.confine (reposDirOf demoCfg) (repoFileOf "../../etc") false,
           Event.exit 1, Event.nextHandler]
        clientOut := [GitErr.systemMalfunction]
        serverLog := ["repo path is outside of repos directory: " ++ repoDirOf demoCfg "../../etc"]
        exitStatus := some 1 } ∧
    Middleware demoCfg demoEnv { command := ["git-lfs", "r"], publicKey := some "k" } =
      { events := okPre demoCfg "r" (some "k") ++ [Event.nextHandler]
        clientOut := []
        serverLog := []
        exitStatus := none } :=
  ⟨by decide,
    (c10_non_pack_git_command demoCfg demoEnv "git-lfs" "../../etc" [] (some "k")
      (by decide) (by decide) (by decide) (by decide)).1 GitErr.systemMalfunction rfl,
    (c10_non_pack_git_command demoCfg demoEnv "git-lfs" "r" [] (some "k")
      (by decide) (by decide) (by decide) (by decide)).2 rfl⟩

/-- The only error value the confinement check ever returns is the
generic system-malfunction error. -/
theorem ensureWithin_error_eq {r p : String} {e : GitErr}
    (h : ensureWithin r p = Except.error e) : e = GitErr.systemMalfunction := by
  simp only [ensureWithin] at h
  split at h
  · exact absurd h (by simp)
  · injection h with h
    exact h.symm

/-- A concrete backend whose creation step fails with a detailed
internal error message. -/
def leakyBackend : Backend :=
  { accessLevel := fun _ _ => AccessLevel.adminAccess
    allowKeyless := false
    repository := fun _ => Except.error "not found"
    createRepository := fun _ _ => Except.error "mkdir /data/repos/x.git: permission denied" }

/-- Configuration around leakyBackend. -/
def leakyCfg : Config := { dataPath := "/data", backend := leakyBackend }

/-- C1 counterexample: when repository creation fails on the push
branch, the middleware writes the underlying error — internal path
detail included — verbatim to the client output stream, not an opaque
generic failure message. -/
theorem c1_counterexample :
    (Middleware leakyCfg demoEnv
      { command := ["git-receive-pack", "x"], publicKey := some "k" }).clientOut =
      [GitErr.raw "mkdir /data/repos/x.git: permission denied"] := by
  decide

/-- C1 amended: a path-confinement failure reaches the client only as
the generic system-malfunction message while the path detail goes to
the server log; but a repository-creation failure is written to the client
verbatim, in addition to being logged server-side with full detail. -/
theorem c1_amended_error_reporting (cfg : Config) (env : Env) (gc c1 : String)
    (rest : List String) (pk : Option String)
    (hgit : strHasPrefix gc "git" = true) :
    (∀ ge, ensureWithin (reposDirOf cfg) (repoFileOf c1) = Except.error ge →
      (Middleware cfg env { command := gc :: c1 :: rest, publicKey := pk }).clientOut =
        [GitErr.systemMalfunction] ∧
      (Middleware cfg env { command := gc :: c1 :: rest, publicKey := pk }).serverLog =
        ["repo path is outside of repos directory: " ++ repoDirOf cfg c1]) ∧
    (∀ ce, gc = receivePackBin →
      ensureWithin (reposDirOf cfg) (repoFileOf c1) = Except.ok () →
      AccessLevel.readWriteAccess ≤ accessOf cfg c1 pk →
      (∃ le, cfg.backend.repository (SanitizeRepo c1) = Except.error le) →
      cfg.backend.createRepository (SanitizeRepo c1) false = Except.error ce →
      (Middleware cfg env { command := gc :: c1 :: rest, publicKey := pk }).clientOut =
        [GitErr.raw ce] ∧
      (Middleware cfg env { command := gc :: c1 :: rest, publicKey := pk }).serverLog =
        ["failed to create repo: " ++ ce]) := by
  constructor
  · intro ge hconf
    have hge : ge = GitErr.systemMalfunction := ensureWithin_error_eq hconf
    subst hge
    unfold Middleware gitDispatch
    simp only [hgit, if_true]
    rw [hconf]
    exact ⟨rfl, rfl⟩
  · rintro ce hgc hconf hacc ⟨le, hrepo⟩ hcr
    subst hgc
    have hnlt : ¬ accessOf cfg c1 pk < AccessLevel.readWriteAccess := Nat.not_lt.mpr hacc
    unfold Middleware gitDispatch receiveBranch
    simp only [hgit, if_true, hconf]
    rw [if_neg hnlt, hrepo, hcr]
    exact ⟨rfl, rfl⟩

/-- Witness for C1 amended: a confinement failure yields only the
generic message, a creation failure leaks its text. -/
theorem c1_amended_error_reporting_witness :
    ((Middleware demoCfg demoEnv
        { command := ["git-receive-pack", "../../etc"], publicKey := some "k" }).clientOut =
      [GitErr.systemMalfunction] ∧
     (Middleware demoCfg demoEnv
        { command := ["git-receive-pack", "../../etc"], publicKey := some "k" }).serverLog =
      ["repo path is outside of repos directory: " ++ repoDirOf demoCfg "../../etc"]) ∧
    ((Middleware leakyCfg demoEnv
        { command := ["git-receive-pack", "x"], publicKey := some "k" }).clientOut =
      [GitErr.raw "mkdir /data/repos/x.git: permission denied"] ∧
     (Middleware leakyCfg demoEnv
        { command := ["git-receive-pack", "x"], publicKey := some "k" }).serverLog =
      ["failed to create repo: " ++ "mkdir /data/repos/x.git: permission denied"]) :=
  ⟨(c1_amended_error_reporting demoCfg demoEnv "git-receive-pack" "../../etc" [] (some "k")
      (by decide)).1 GitErr.systemMalfunction rfl,
   (c1_amended_error_reporting leakyCfg demoEnv "git-receive-pack" "x" [] (some "k")
      (by decide)).2 "mkdir /data/repos/x.git: permission denied" rfl rfl (by decide)
      ⟨"not found", rfl⟩ rfl⟩

end SoftServe
